import Mathlib

/-!
# Four-digit seven-segment display firmware (`src/main.cpp`)

A shallow embedding of the firmware's interrupt handlers, of the digit
computation at the top of the main loop and of the multiplexed refresh loop,
followed by the properties proved about them.

Conventions of the embedding:
* C `int` values are `Int`; `/` and `%` of C truncate toward zero and are
  `Int.tdiv` and `Int.tmod`. The increment of the 32-bit counter wraps in two's
  complement (`wrapInt32`).
* `uint8_t` values are `Nat`; storing into a `uint8_t` reduces modulo 256.
* A read of a constant table outside its bounds has no defined result and is
  `none`.
* The voltage branch converts a floating-point sample to `int val`; the
  embedding starts from that integer.
-/

namespace Display

/-! ## Constant tables (lines 17-26) -/

/-- Segment patterns for the digits 0-9. -/
def SEGMENT_MAP : List Nat :=
  [0xC0, 0xF9, 0xA4, 0xB0,
   0x99, 0x92, 0x82, 0xF8,
   0x80, 0x90]

/-- Digit select bytes for the four positions. -/
def SELECT_MAP : List Nat :=
  [0xF1, 0xF2, 0xF4, 0xF8]

/-- Indexing of a constant table by a C `int`: defined only inside the bounds. -/
def readTable (t : List Nat) (i : Int) : Option Nat :=
  if 0 ≤ i then t[i.toNat]? else none

/-! ## Shared state and interrupt handlers (lines 28-52) -/

/-- The two globals `secondsCount` and `showVoltage`. -/
structure Shared where
  secondsCount : Int
  showVoltage : Bool
  deriving DecidableEq, Repr

/-- Initial values of the globals. -/
def Shared.init : Shared := ⟨0, false⟩

/-- Two's complement reduction of an integer to the range of a 32-bit `int`. -/
def wrapInt32 (x : Int) : Int := (x + 2147483648) % 4294967296 - 2147483648

/-- Handler `tick`: `secondsCount++`, with no reduction modulo 6000. The
increment of the 32-bit `int` is taken to wrap at `2^31`. -/
def tick (s : Shared) : Shared :=
  ⟨wrapInt32 (s.secondsCount + 1), s.showVoltage⟩

/-- Handler `onResetPressed`: `secondsCount = 0`. -/
def onResetPressed (s : Shared) : Shared :=
  ⟨0, s.showVoltage⟩

/-- Handler `onS3Pressed`: `showVoltage = true`. -/
def onS3Pressed (s : Shared) : Shared :=
  ⟨s.secondsCount, true⟩

/-- Handler `onS3Released`: `showVoltage = false`. -/
def onS3Released (s : Shared) : Shared :=
  ⟨s.secondsCount, false⟩

/-- Run of `n` successive invocations of `tick`. -/
def runTicks : Nat → Shared → Shared
  | 0, s => s
  | n + 1, s => runTicks n (tick s)

/-! ## Digit computation of the main loop (lines 75-103) -/

/-- The locals `d0 d1 d2 d3 dp0 dp2` of one pass of the main loop. -/
structure DigitQuad where
  d0 : Int
  d1 : Int
  d2 : Int
  d3 : Int
  dp0 : Bool
  dp2 : Bool
  deriving DecidableEq, Repr

/-- The value `total` read by the time branch: `secondsCount % 6000`. -/
def timeTotal (secondsCount : Int) : Int := Int.tmod secondsCount 6000

/-- Voltage branch (lines 84-90), from the converted sample `val`. -/
def voltageDigits (val0 : Int) : DigitQuad :=
  let val := if val0 > 330 then 330 else val0
  let d0 := Int.tdiv val 100
  let dec := Int.tmod val 100
  let d1 := Int.tdiv dec 10
  let d2 := Int.tmod dec 10
  let d3 := 10
  ⟨d0, d1, d2, d3, true, false⟩

/-- Time branch (lines 93-102), from the stored counter. -/
def timeDigits (secondsCount : Int) : DigitQuad :=
  let total := timeTotal secondsCount
  let minutes := Int.tdiv total 60
  let seconds := Int.tmod total 60
  let d0 := Int.tmod (Int.tdiv minutes 10) 10
  let d1 := Int.tmod minutes 10
  let d2 := Int.tdiv seconds 10
  let d3 := Int.tmod seconds 10
  ⟨d0, d1, d2, d3, false, true⟩

/-- Digits and flags of one pass of the main loop: `val` is the converted
sample, used only when `showVoltage` is set. -/
def format (s : Shared) (val : Int) : DigitQuad :=
  if s.showVoltage then voltageDigits val else timeDigits s.secondsCount

/-! ## Refresh loop (lines 54-61 and 105-119) -/

/-- The expression `d <= 9 ? SEGMENT_MAP[d] : 0xFF`. -/
def segOrBlank (d : Int) : Option Nat :=
  if d ≤ 9 then readTable SEGMENT_MAP d else some 0xFF

/-- The mask `dp ? 0x7F : 0xFF`. -/
def dpMask (dp : Bool) : Nat := if dp then 0x7F else 0xFF

/-- The byte `segByte` assigned at position `pos` (lines 108-111). -/
def segByte (q : DigitQuad) (pos : Int) : Option Nat :=
  if pos = 0 then
    (segOrBlank q.d0).map fun b => (b &&& dpMask q.dp0) % 256
  else if pos = 1 then
    if q.d1 ≤ 9 then
      (readTable SEGMENT_MAP q.d1).map fun b => (b &&& dpMask q.dp2) % 256
    else some (0xFF % 256)
  else if pos = 2 then
    (segOrBlank q.d2).map fun b => b % 256
  else if pos = 3 then
    (segOrBlank q.d3).map fun b => b % 256
  else none

/-- Writes to the output lines and the hold, in program order. -/
inductive Event where
  | latch (v : Nat)
  | clock (v : Nat)
  | data (v : Nat)
  | sleep1ms
  deriving DecidableEq, Repr

/-- The loop of `shiftOutByte` with `n` iterations left, that is `bit = n - 1`. -/
def shiftOutFrom (val : Nat) : Nat → List Event
  | 0 => []
  | n + 1 =>
    [Event.clock 0, Event.data ((val >>> n) &&& 0x1), Event.clock 1] ++ shiftOutFrom val n

/-- Function `shiftOutByte`: bits 7 down to 0. -/
def shiftOutByte (val : Nat) : List Event := shiftOutFrom val 8

/-- The refresh loop `for (pos = ...; pos < 4; pos++)` entered at position
`pos` with `n = 4 - pos` iterations left. -/
def refreshLoop (q : DigitQuad) (pos : Nat) : Nat → Option (List Event)
  | 0 => some []
  | n + 1 => do
    let seg ← segByte q pos
    let sel ← readTable SELECT_MAP pos
    let rest ← refreshLoop q (pos + 1) n
    pure ([Event.latch 0] ++ shiftOutByte seg ++ shiftOutByte sel
      ++ [Event.latch 1, Event.sleep1ms] ++ rest)

/-- One frame: the refresh loop from position 0, four iterations. -/
def refreshFrame (q : DigitQuad) : Option (List Event) := refreshLoop q 0 4

/-- The segment bytes handed to `shiftOutByte` at positions 0, 1, 2, 3 of one
frame, in that order. -/
def frameSegBytes (q : DigitQuad) : Option (List Nat) := do
  let b0 ← segByte q 0
  let b1 ← segByte q 1
  let b2 ← segByte q 2
  let b3 ← segByte q 3
  pure [b0, b1, b2, b3]

/-! ## Observation of the output lines -/

/-- Values of the data line at the rising edges of the clock line, in order.
The arguments `clk` and `dat` are the levels of the two lines before the first
event; a line is low when its level is 0. -/
def risingEdgeData (clk dat : Nat) : List Event → List Nat
  | [] => []
  | Event.clock v :: es =>
    if clk = 0 ∧ v ≠ 0 then dat :: risingEdgeData v dat es else risingEdgeData v dat es
  | Event.data v :: es => risingEdgeData clk v es
  | Event.latch _ :: es => risingEdgeData clk dat es
  | Event.sleep1ms :: es => risingEdgeData clk dat es

/-- Number of low-to-high transitions of the latch line; `lat` is its level
before the first event. -/
def latchPulses (lat : Nat) : List Event → Nat
  | [] => 0
  | Event.latch v :: es =>
    if lat = 0 ∧ v ≠ 0 then latchPulses v es + 1 else latchPulses v es
  | Event.clock _ :: es => latchPulses lat es
  | Event.data _ :: es => latchPulses lat es
  | Event.sleep1ms :: es => latchPulses lat es

/-- Value held by a receiver that shifts the given bits in, first bit most
significant. -/
def shiftIn (bits : List Nat) : Nat :=
  bits.foldl (fun acc b => 2 * acc + b) 0

/-! ## The tick handler as the specification words it -/

/-- Specification wording of the tick handler, for comparison with `tick`:
increment the counter, wrapping to 0 after it would exceed 5999. -/
def specTick (s : Shared) : Shared :=
  ⟨if s.secondsCount + 1 > 5999 then 0 else s.secondsCount + 1, s.showVoltage⟩

/-- Run of `n` successive invocations of `specTick`. -/
def runSpecTicks : Nat → Shared → Shared
  | 0, s => s
  | n + 1, s => runSpecTicks n (specTick s)

end Display

namespace Display

/-! ## Arithmetic helpers -/

theorem timeDigits_of_nonneg (c : Int) (h : 0 ≤ c) :
    timeDigits c =
      ⟨(c % 6000 / 60 / 10) % 10, (c % 6000 / 60) % 10,
        (c % 6000 % 60) / 10, (c % 6000 % 60) % 10, false, true⟩ := by
  have ht : Int.tmod c 6000 = c % 6000 := Int.tmod_eq_emod h (by decide)
  have ht0 : 0 ≤ c % 6000 := Int.emod_nonneg c (by decide)
  have hm : Int.tdiv (c % 6000) 60 = c % 6000 / 60 := Int.tdiv_eq_ediv ht0 (by decide)
  have hm0 : 0 ≤ c % 6000 / 60 := Int.ediv_nonneg ht0 (by decide)
  have hs : Int.tmod (c % 6000) 60 = c % 6000 % 60 := Int.tmod_eq_emod ht0 (by decide)
  have hs0 : 0 ≤ c % 6000 % 60 := Int.emod_nonneg _ (by decide)
  have hmt : Int.tdiv (c % 6000 / 60) 10 = c % 6000 / 60 / 10 :=
    Int.tdiv_eq_ediv hm0 (by decide)
  have hmt0 : 0 ≤ c % 6000 / 60 / 10 := Int.ediv_nonneg hm0 (by decide)
  have e0 : Int.tmod (c % 6000 / 60 / 10) 10 = (c % 6000 / 60 / 10) % 10 :=
    Int.tmod_eq_emod hmt0 (by decide)
  have e1 : Int.tmod (c % 6000 / 60) 10 = (c % 6000 / 60) % 10 :=
    Int.tmod_eq_emod hm0 (by decide)
  have e2 : Int.tdiv (c % 6000 % 60) 10 = (c % 6000 % 60) / 10 :=
    Int.tdiv_eq_ediv hs0 (by decide)
  have e3 : Int.tmod (c % 6000 % 60) 10 = (c % 6000 % 60) % 10 :=
    Int.tmod_eq_emod hs0 (by decide)
  simp only [timeDigits, timeTotal, ht, hm, hs, hmt, e0, e1, e2, e3]

theorem voltageDigits_of_nonneg (val : Int) (h : 0 ≤ val) :
    voltageDigits val =
      ⟨min val 330 / 100, (min val 330 % 100) / 10, (min val 330 % 100) % 10, 10,
        true, false⟩ := by
  have hc : (if val > 330 then 330 else val) = min val 330 := by
    split <;> omega
  have hc0 : 0 ≤ min val 330 := by omega
  have e0 : Int.tdiv (min val 330) 100 = min val 330 / 100 := Int.tdiv_eq_ediv hc0 (by decide)
  have hd : Int.tmod (min val 330) 100 = min val 330 % 100 := Int.tmod_eq_emod hc0 (by decide)
  have hd0 : 0 ≤ min val 330 % 100 := Int.emod_nonneg _ (by decide)
  have e1 : Int.tdiv (min val 330 % 100) 10 = (min val 330 % 100) / 10 :=
    Int.tdiv_eq_ediv hd0 (by decide)
  have e2 : Int.tmod (min val 330 % 100) 10 = (min val 330 % 100) % 10 :=
    Int.tmod_eq_emod hd0 (by decide)
  simp only [voltageDigits, hc, e0, hd, e1, e2]

/-! ## Formatting -/

/-- C1. Time-mode formatting: for every counter value `total` with
`0 ≤ total ≤ 5999`, the digits computed by the time branch of the main loop
satisfy `(d0*10+d1)*60 + (d2*10+d3) = total`, each digit lies in `0..9`, and the
flag `dp2` is set while `dp0` is clear. -/
theorem format_time_reconstructs (total val : Int) (h0 : 0 ≤ total) (h1 : total ≤ 5999) :
    (((format ⟨total, false⟩ val).d0 * 10 + (format ⟨total, false⟩ val).d1) * 60
        + ((format ⟨total, false⟩ val).d2 * 10 + (format ⟨total, false⟩ val).d3) = total)
    ∧ (0 ≤ (format ⟨total, false⟩ val).d0 ∧ (format ⟨total, false⟩ val).d0 ≤ 9)
    ∧ (0 ≤ (format ⟨total, false⟩ val).d1 ∧ (format ⟨total, false⟩ val).d1 ≤ 9)
    ∧ (0 ≤ (format ⟨total, false⟩ val).d2 ∧ (format ⟨total, false⟩ val).d2 ≤ 9)
    ∧ (0 ≤ (format ⟨total, false⟩ val).d3 ∧ (format ⟨total, false⟩ val).d3 ≤ 9)
    ∧ (format ⟨total, false⟩ val).dp2 = true
    ∧ (format ⟨total, false⟩ val).dp0 = false := by
  have hf : format ⟨total, false⟩ val = timeDigits total := by simp [format]
  rw [hf, timeDigits_of_nonneg total h0]
  refine ⟨?_, ⟨?_, ?_⟩, ⟨?_, ?_⟩, ⟨?_, ?_⟩, ⟨?_, ?_⟩, rfl, rfl⟩ <;> dsimp only <;> omega

theorem format_time_reconstructs_witness :
    (((format ⟨125, false⟩ 0).d0 * 10 + (format ⟨125, false⟩ 0).d1) * 60
        + ((format ⟨125, false⟩ 0).d2 * 10 + (format ⟨125, false⟩ 0).d3) = 125)
    ∧ (0 ≤ (format ⟨125, false⟩ 0).d0 ∧ (format ⟨125, false⟩ 0).d0 ≤ 9)
    ∧ (0 ≤ (format ⟨125, false⟩ 0).d1 ∧ (format ⟨125, false⟩ 0).d1 ≤ 9)
    ∧ (0 ≤ (format ⟨125, false⟩ 0).d2 ∧ (format ⟨125, false⟩ 0).d2 ≤ 9)
    ∧ (0 ≤ (format ⟨125, false⟩ 0).d3 ∧ (format ⟨125, false⟩ 0).d3 ≤ 9)
    ∧ (format ⟨125, false⟩ 0).dp2 = true
    ∧ (format ⟨125, false⟩ 0).dp0 = false :=
  format_time_reconstructs 125 0 (by decide) (by decide)

/-- C2. Voltage-mode formatting: for every centivolt value `val ≥ 0`, with
`c = min val 330`, the digits computed by the voltage branch of the main loop
satisfy `d0*100 + d1*10 + d2 = c`, `d3` is the blank sentinel `10`, and the
flag `dp0` is set while `dp2` is clear; for `val` in `0..330` the digits
reconstruct `val` itself, above it they reconstruct 330. The stored counter
plays no part. -/
theorem format_voltage_reconstructs (cnt val : Int) (h0 : 0 ≤ val) :
    ((format ⟨cnt, true⟩ val).d0 * 100 + (format ⟨cnt, true⟩ val).d1 * 10
        + (format ⟨cnt, true⟩ val).d2 = min val 330)
    ∧ (format ⟨cnt, true⟩ val).d3 = 10
    ∧ (format ⟨cnt, true⟩ val).dp0 = true
    ∧ (format ⟨cnt, true⟩ val).dp2 = false
    ∧ (if val ≤ 330 then
        (format ⟨cnt, true⟩ val).d0 * 100 + (format ⟨cnt, true⟩ val).d1 * 10
          + (format ⟨cnt, true⟩ val).d2 = val
      else
        (format ⟨cnt, true⟩ val).d0 * 100 + (format ⟨cnt, true⟩ val).d1 * 10
          + (format ⟨cnt, true⟩ val).d2 = 330) := by
  have hf : format ⟨cnt, true⟩ val = voltageDigits val := by simp [format]
  rw [hf, voltageDigits_of_nonneg val h0]
  refine ⟨?_, rfl, rfl, rfl, ?_⟩
  · dsimp only; omega
  · split <;> dsimp only <;> omega

theorem format_voltage_reconstructs_witness :
    ((format ⟨7, true⟩ 45).d0 * 100 + (format ⟨7, true⟩ 45).d1 * 10
        + (format ⟨7, true⟩ 45).d2 = min 45 330)
    ∧ (format ⟨7, true⟩ 45).d3 = 10
    ∧ (format ⟨7, true⟩ 45).dp0 = true
    ∧ (format ⟨7, true⟩ 45).dp2 = false
    ∧ (format ⟨7, true⟩ 45).d0 * 100 + (format ⟨7, true⟩ 45).d1 * 10
          + (format ⟨7, true⟩ 45).d2 = 45 := by
  have h := format_voltage_reconstructs 7 45 (by decide)
  exact ⟨h.1, h.2.1, h.2.2.1, h.2.2.2.1, by simpa using h.2.2.2.2⟩

/-! ## Tick and reset handlers -/

theorem runTicks_spec (n : Nat) (s : Shared) (h0 : 0 ≤ s.secondsCount)
    (h1 : s.secondsCount + n < 2147483648) :
    runTicks n s = ⟨s.secondsCount + n, s.showVoltage⟩ := by
  induction n generalizing s with
  | zero => simp [runTicks]
  | succ k ih =>
    have hw : wrapInt32 (s.secondsCount + 1) = s.secondsCount + 1 := by
      unfold wrapInt32
      push_cast at h1
      omega
    have hk := ih (tick s) (by simp only [tick, hw]; omega)
      (by simp only [tick, hw]; push_cast at h1 ⊢; omega)
    rw [runTicks, hk]
    simp only [tick, hw]
    push_cast
    congr 1
    omega

/-- C3 as stated fails: after 6000 invocations of `tick` from 0 the stored
counter is 6000, neither 0 nor within `0..5999`. -/
theorem tick_stored_counter_not_wrapped :
    (runTicks 6000 Shared.init).secondsCount = 6000
    ∧ ¬ ((runTicks 6000 Shared.init).secondsCount = 0)
    ∧ ¬ ((runTicks 6000 Shared.init).secondsCount ≤ 5999) := by
  have h := runTicks_spec 6000 Shared.init (by decide) (by decide)
  rw [h]
  decide

/-- C3, amended. The tick handler increments the stored counter by one and
does not reduce it: starting from 0, after `n` invocations of `tick` with no
reset in between (`n` below `2^31`) the stored counter is `n`. The reduction
modulo 6000 is applied when the main loop reads the counter: the value
`total = secondsCount % 6000` equals `n % 6000`, so it is 0 again after exactly
6000 ticks, and it stays within `0..5999` after every tick. -/
theorem tick_counts_read_wraps (n : Nat) (h : n < 2147483648) :
    (runTicks n Shared.init).secondsCount = n
    ∧ timeTotal (runTicks n Shared.init).secondsCount = ((n % 6000 : Nat) : Int)
    ∧ 0 ≤ timeTotal (runTicks n Shared.init).secondsCount
    ∧ timeTotal (runTicks n Shared.init).secondsCount ≤ 5999 := by
  have hr := runTicks_spec n Shared.init (by decide)
    (by simp only [Shared.init]; omega)
  have hc : (runTicks n Shared.init).secondsCount = n := by
    rw [hr]; simp [Shared.init]
  have ht : timeTotal (n : Int) = (n : Int) % 6000 :=
    Int.tmod_eq_emod (by omega) (by decide)
  rw [hc, ht]
  refine ⟨rfl, ?_, ?_, ?_⟩ <;> omega

theorem tick_counts_read_wraps_witness :
    (runTicks 6000 Shared.init).secondsCount = 6000
    ∧ timeTotal (runTicks 6000 Shared.init).secondsCount = 0
    ∧ 0 ≤ timeTotal (runTicks 6000 Shared.init).secondsCount
    ∧ timeTotal (runTicks 6000 Shared.init).secondsCount ≤ 5999 :=
  tick_counts_read_wraps 6000 (by decide)

/-- C10. Reset: for every value of the seconds counter and either display
mode, after one invocation of `onResetPressed` the stored counter is 0, and so
is the value the main loop reads from it. -/
theorem reset_reads_zero (cnt : Int) (mode : Bool) :
    (onResetPressed ⟨cnt, mode⟩).secondsCount = 0
    ∧ timeTotal (onResetPressed ⟨cnt, mode⟩).secondsCount = 0 := by
  constructor <;> rfl

/-! ## Segment encoding -/

theorem readTable_digit (d : Int) (h0 : 0 ≤ d) (h9 : d ≤ 9) :
    ∃ e, readTable SEGMENT_MAP d = some e
      ∧ ([0xC0, 0xF9, 0xA4, 0xB0, 0x99, 0x92, 0x82, 0xF8, 0x80, 0x90] : List Nat)[d.toNat]?
          = some e
      ∧ e % 256 = e ∧ (e &&& 0xFF) % 256 = e ∧ (e &&& 0x7F) % 256 = e &&& 0x7F
      ∧ (e &&& 0x7F) &&& 0x80 = 0 ∧ (e &&& 0x7F) &&& 0x7F = e &&& 0x7F := by
  interval_cases d <;> exact ⟨_, rfl, rfl, by decide⟩

theorem segOrBlank_digit (d : Int) (h9 : d ≤ 9) : segOrBlank d = readTable SEGMENT_MAP d := by
  simp [segOrBlank, h9]

/-- C4. Segment encoding: for every digit `d` in `0..9`, with `e` the `d`-th
entry of the table `[0xC0,0xF9,0xA4,0xB0,0x99,0x92,0x82,0xF8,0x80,0x90]`, the
byte computed by the refresh loop is `e` at every position when no decimal
point applies (position 0 with `dp0` clear, position 1 with `dp2` clear,
positions 2 and 3 always), it is `e AND 0x7F` at position 0 with `dp0` set and
at position 1 with `dp2` set, and for the blank digit `10` without decimal
point it is `0xFF` at every position. The other digits and flags of the pass
are arbitrary. -/
theorem segByte_encoding (d : Int) (h0 : 0 ≤ d) (h9 : d ≤ 9) (x y z : Int) (f g : Bool) :
    ∃ e, ([0xC0, 0xF9, 0xA4, 0xB0, 0x99, 0x92, 0x82, 0xF8, 0x80, 0x90] : List Nat)[d.toNat]?
          = some e
      ∧ segByte ⟨d, x, y, z, false, g⟩ 0 = some e
      ∧ segByte ⟨x, d, y, z, f, false⟩ 1 = some e
      ∧ segByte ⟨x, y, d, z, f, g⟩ 2 = some e
      ∧ segByte ⟨x, y, z, d, f, g⟩ 3 = some e
      ∧ segByte ⟨d, x, y, z, true, g⟩ 0 = some (e &&& 0x7F)
      ∧ segByte ⟨x, d, y, z, f, true⟩ 1 = some (e &&& 0x7F)
      ∧ segByte ⟨10, x, y, z, false, g⟩ 0 = some 0xFF
      ∧ segByte ⟨x, 10, y, z, f, false⟩ 1 = some 0xFF
      ∧ segByte ⟨x, y, 10, z, f, g⟩ 2 = some 0xFF
      ∧ segByte ⟨x, y, z, 10, f, g⟩ 3 = some 0xFF := by
  obtain ⟨e, he, ht, h1, h2, h3, -, -⟩ := readTable_digit d h0 h9
  refine ⟨e, ht, ?_, ?_, ?_, ?_, ?_, ?_, ?_, ?_, ?_, ?_⟩
  · simp [segByte, segOrBlank, h9, he, dpMask, h2]
  · simp [segByte, h9, he, dpMask, h2]
  · simp [segByte, segOrBlank, h9, he, h1]
  · simp [segByte, segOrBlank, h9, he, h1]
  · simp [segByte, segOrBlank, h9, he, dpMask, h3]
  · simp [segByte, h9, he, dpMask, h3]
  · simp [segByte, segOrBlank, dpMask]
  · simp [segByte]
  · simp [segByte, segOrBlank]
  · simp [segByte, segOrBlank]

theorem segByte_encoding_witness :
    ∃ e, ([0xC0, 0xF9, 0xA4, 0xB0, 0x99, 0x92, 0x82, 0xF8, 0x80, 0x90] : List Nat)[(2 : Int).toNat]?
          = some e
      ∧ segByte ⟨2, 0, 0, 5, false, true⟩ 0 = some e
      ∧ segByte ⟨0, 2, 0, 5, false, false⟩ 1 = some e
      ∧ segByte ⟨0, 0, 2, 5, false, true⟩ 2 = some e
      ∧ segByte ⟨0, 0, 5, 2, false, true⟩ 3 = some e
      ∧ segByte ⟨2, 0, 0, 5, true, true⟩ 0 = some (e &&& 0x7F)
      ∧ segByte ⟨0, 2, 0, 5, false, true⟩ 1 = some (e &&& 0x7F)
      ∧ segByte ⟨10, 0, 0, 5, false, true⟩ 0 = some 0xFF
      ∧ segByte ⟨0, 10, 0, 5, false, false⟩ 1 = some 0xFF
      ∧ segByte ⟨0, 0, 10, 5, false, true⟩ 2 = some 0xFF
      ∧ segByte ⟨0, 0, 5, 10, false, true⟩ 3 = some 0xFF :=
  segByte_encoding 2 (by decide) (by decide) 0 0 5 false true

/-! ## Frames -/

theorem frameSegBytes_time (c : Int) (h : 0 ≤ c) :
    ∃ e0 e1 e2 e3,
      readTable SEGMENT_MAP (timeDigits c).d0 = some e0
      ∧ readTable SEGMENT_MAP (timeDigits c).d1 = some e1
      ∧ readTable SEGMENT_MAP (timeDigits c).d2 = some e2
      ∧ readTable SEGMENT_MAP (timeDigits c).d3 = some e3
      ∧ segByte (timeDigits c) 0 = some e0
      ∧ segByte (timeDigits c) 1 = some (e1 &&& 0x7F)
      ∧ segByte (timeDigits c) 2 = some e2
      ∧ segByte (timeDigits c) 3 = some e3 := by
  rw [timeDigits_of_nonneg c h]
  dsimp only
  have b0 : 0 ≤ c % 6000 / 60 / 10 % 10 ∧ c % 6000 / 60 / 10 % 10 ≤ 9 := by omega
  have b1 : 0 ≤ c % 6000 / 60 % 10 ∧ c % 6000 / 60 % 10 ≤ 9 := by omega
  have b2 : 0 ≤ c % 6000 % 60 / 10 ∧ c % 6000 % 60 / 10 ≤ 9 := by omega
  have b3 : 0 ≤ c % 6000 % 60 % 10 ∧ c % 6000 % 60 % 10 ≤ 9 := by omega
  obtain ⟨e0, r0, -, m0, k0, -, -, -⟩ := readTable_digit _ b0.1 b0.2
  obtain ⟨e1, r1, -, -, -, m1, -, -⟩ := readTable_digit _ b1.1 b1.2
  obtain ⟨e2, r2, -, m2, -, -, -, -⟩ := readTable_digit _ b2.1 b2.2
  obtain ⟨e3, r3, -, m3, -, -, -, -⟩ := readTable_digit _ b3.1 b3.2
  refine ⟨e0, e1, e2, e3, r0, r1, r2, r3, ?_, ?_, ?_, ?_⟩
  · simp [segByte, segOrBlank, b0.2, r0, dpMask, k0]
  · simp [segByte, b1.2, r1, dpMask, m1]
  · simp [segByte, segOrBlank, b2.2, r2, m2]
  · simp [segByte, segOrBlank, b3.2, r3, m3]

theorem frameSegBytes_voltage (val : Int) (h : 0 ≤ val) :
    ∃ e0 e1 e2,
      readTable SEGMENT_MAP (voltageDigits val).d0 = some e0
      ∧ readTable SEGMENT_MAP (voltageDigits val).d1 = some e1
      ∧ readTable SEGMENT_MAP (voltageDigits val).d2 = some e2
      ∧ segByte (voltageDigits val) 0 = some (e0 &&& 0x7F)
      ∧ segByte (voltageDigits val) 1 = some e1
      ∧ segByte (voltageDigits val) 2 = some e2
      ∧ segByte (voltageDigits val) 3 = some 0xFF := by
  rw [voltageDigits_of_nonneg val h]
  dsimp only
  have b0 : 0 ≤ min val 330 / 100 ∧ min val 330 / 100 ≤ 9 := by omega
  have b1 : 0 ≤ min val 330 % 100 / 10 ∧ min val 330 % 100 / 10 ≤ 9 := by omega
  have b2 : 0 ≤ min val 330 % 100 % 10 ∧ min val 330 % 100 % 10 ≤ 9 := by omega
  obtain ⟨e0, r0, -, -, -, m0, -, -⟩ := readTable_digit _ b0.1 b0.2
  obtain ⟨e1, r1, -, -, k1, -, -, -⟩ := readTable_digit _ b1.1 b1.2
  obtain ⟨e2, r2, -, m2, -, -, -, -⟩ := readTable_digit _ b2.1 b2.2
  refine ⟨e0, e1, e2, r0, r1, r2, ?_, ?_, ?_, ?_⟩
  · simp [segByte, segOrBlank, b0.2, r0, dpMask, m0]
  · simp [segByte, b1.2, r1, dpMask, k1]
  · simp [segByte, segOrBlank, b2.2, r2, m2]
  · simp [segByte, segOrBlank]

/-- C5. Time-mode rendering as MM.SS: for every counter value `total` in
`0..5999` in time mode, with `m = total/60` and `s = total%60`, the four segment
bytes of one frame for positions 0..3 are
`[SEGMENT_MAP[m/10], SEGMENT_MAP[m%10] AND 0x7F, SEGMENT_MAP[s/10], SEGMENT_MAP[s%10]]`:
the decimal point is applied to the second digit only. For `total = 125` the
bytes are `[0xC0, 0x24, 0xC0, 0x92]`. The operands are non-negative, where the
division and remainder of C and those of `Int` agree. -/
theorem time_frame_bytes (total val : Int) (h0 : 0 ≤ total) (h1 : total ≤ 5999) :
    (∃ b0 b1 b2 b3,
      readTable SEGMENT_MAP (total / 60 / 10) = some b0
      ∧ readTable SEGMENT_MAP (total / 60 % 10) = some b1
      ∧ readTable SEGMENT_MAP (total % 60 / 10) = some b2
      ∧ readTable SEGMENT_MAP (total % 60 % 10) = some b3
      ∧ frameSegBytes (format ⟨total, false⟩ val) = some [b0, b1 &&& 0x7F, b2, b3])
    ∧ frameSegBytes (format ⟨125, false⟩ val) = some [0xC0, 0x24, 0xC0, 0x92] := by
  have hf : ∀ c, format ⟨c, false⟩ val = timeDigits c := fun c => by simp [format]
  refine ⟨?_, ?_⟩
  · obtain ⟨e0, e1, e2, e3, r0, r1, r2, r3, s0, s1, s2, s3⟩ := frameSegBytes_time total h0
    rw [timeDigits_of_nonneg total h0] at r0 r1 r2 r3
    dsimp only at r0 r1 r2 r3
    have ht : total % 6000 = total := by omega
    have hd : total / 60 / 10 % 10 = total / 60 / 10 := by omega
    rw [ht] at r0 r1 r2 r3
    rw [hd] at r0
    refine ⟨e0, e1, e2, e3, r0, r1, r2, r3, ?_⟩
    simp [hf, frameSegBytes, s0, s1, s2, s3]
  · rw [hf]; decide

theorem time_frame_bytes_witness :
    (∃ b0 b1 b2 b3,
      readTable SEGMENT_MAP ((5999 : Int) / 60 / 10) = some b0
      ∧ readTable SEGMENT_MAP ((5999 : Int) / 60 % 10) = some b1
      ∧ readTable SEGMENT_MAP ((5999 : Int) % 60 / 10) = some b2
      ∧ readTable SEGMENT_MAP ((5999 : Int) % 60 % 10) = some b3
      ∧ frameSegBytes (format ⟨5999, false⟩ 0) = some [b0, b1 &&& 0x7F, b2, b3])
    ∧ frameSegBytes (format ⟨125, false⟩ 0) = some [0xC0, 0x24, 0xC0, 0x92] :=
  time_frame_bytes 5999 0 (by decide) (by decide)

/-- C6. Voltage-mode rendering: for every centivolt value `val ≥ 0` in voltage
mode, with `c = min val 330`, the four segment bytes of one frame for positions
0..3 are
`[SEGMENT_MAP[c/100] AND 0x7F, SEGMENT_MAP[(c%100)/10], SEGMENT_MAP[c%10], 0xFF]`:
the decimal point is applied to the first digit only and the fourth digit is
dark. `val = 330` gives `[0x30, 0xB0, 0xC0, 0xFF]` and `val = 45` gives
`[0x40, 0x99, 0x92, 0xFF]`. The operands are non-negative, where the division
and remainder of C and those of `Int` agree. -/
theorem voltage_frame_bytes (cnt val : Int) (h0 : 0 ≤ val) :
    (∃ b0 b1 b2,
      readTable SEGMENT_MAP (min val 330 / 100) = some b0
      ∧ readTable SEGMENT_MAP (min val 330 % 100 / 10) = some b1
      ∧ readTable SEGMENT_MAP (min val 330 % 10) = some b2
      ∧ frameSegBytes (format ⟨cnt, true⟩ val) = some [b0 &&& 0x7F, b1, b2, 0xFF])
    ∧ frameSegBytes (format ⟨cnt, true⟩ 330) = some [0x30, 0xB0, 0xC0, 0xFF]
    ∧ frameSegBytes (format ⟨cnt, true⟩ 45) = some [0x40, 0x99, 0x92, 0xFF] := by
  have hf : ∀ v, format ⟨cnt, true⟩ v = voltageDigits v := fun v => by simp [format]
  refine ⟨?_, ?_, ?_⟩
  · obtain ⟨e0, e1, e2, r0, r1, r2, s0, s1, s2, s3⟩ := frameSegBytes_voltage val h0
    rw [voltageDigits_of_nonneg val h0] at r0 r1 r2
    dsimp only at r0 r1 r2
    have hd : min val 330 % 100 % 10 = min val 330 % 10 := by omega
    rw [hd] at r2
    refine ⟨e0, e1, e2, r0, r1, r2, ?_⟩
    simp [hf, frameSegBytes, s0, s1, s2, s3]
  · rw [hf]; decide
  · rw [hf]; decide

theorem voltage_frame_bytes_witness :
    (∃ b0 b1 b2,
      readTable SEGMENT_MAP (min (1000 : Int) 330 / 100) = some b0
      ∧ readTable SEGMENT_MAP (min (1000 : Int) 330 % 100 / 10) = some b1
      ∧ readTable SEGMENT_MAP (min (1000 : Int) 330 % 10) = some b2
      ∧ frameSegBytes (format ⟨0, true⟩ 1000) = some [b0 &&& 0x7F, b1, b2, 0xFF])
    ∧ frameSegBytes (format ⟨0, true⟩ 330) = some [0x30, 0xB0, 0xC0, 0xFF]
    ∧ frameSegBytes (format ⟨0, true⟩ 45) = some [0x40, 0x99, 0x92, 0xFF] :=
  voltage_frame_bytes 0 1000 (by decide)

/-! ## Decimal point -/

/-- C7 as stated fails: at counter value 0 in time mode the byte of position 2
is the plain table entry `0xC0`, not `0xC0 AND 0x7F`, and the byte of position 1
is `0x40`, not the plain table entry. -/
theorem time_dp_not_on_position_two :
    segByte (format ⟨0, false⟩ 0) 2 = some 0xC0
    ∧ readTable SEGMENT_MAP (format ⟨0, false⟩ 0).d2 = some 0xC0
    ∧ ¬ (segByte (format ⟨0, false⟩ 0) 2 = some (0xC0 &&& 0x7F))
    ∧ segByte (format ⟨0, false⟩ 0) 1 = some 0x40
    ∧ readTable SEGMENT_MAP (format ⟨0, false⟩ 0).d1 = some 0xC0
    ∧ ¬ (segByte (format ⟨0, false⟩ 0) 1 = some 0xC0) := by
  decide

/-- C7, amended. In time mode the decimal-point marker is carried by
position 1: for every counter value `total` in `0..5999`, the segment byte of
position 1 (the units-of-minutes digit `d1`) is `SEGMENT_MAP[d1] AND 0x7F`, and
the segment bytes of positions 0, 2 and 3 are the plain table entries of `d0`,
`d2` and `d3`. -/
theorem time_dp_on_position_one (total val : Int) (h0 : 0 ≤ total) (h1 : total ≤ 5999) :
    ∃ e0 e1 e2 e3,
      readTable SEGMENT_MAP (format ⟨total, false⟩ val).d0 = some e0
      ∧ readTable SEGMENT_MAP (format ⟨total, false⟩ val).d1 = some e1
      ∧ readTable SEGMENT_MAP (format ⟨total, false⟩ val).d2 = some e2
      ∧ readTable SEGMENT_MAP (format ⟨total, false⟩ val).d3 = some e3
      ∧ segByte (format ⟨total, false⟩ val) 0 = some e0
      ∧ segByte (format ⟨total, false⟩ val) 1 = some (e1 &&& 0x7F)
      ∧ segByte (format ⟨total, false⟩ val) 2 = some e2
      ∧ segByte (format ⟨total, false⟩ val) 3 = some e3 := by
  have hf : format ⟨total, false⟩ val = timeDigits total := by simp [format]
  have _ := h1
  rw [hf]
  exact frameSegBytes_time total h0

theorem time_dp_on_position_one_witness :
    ∃ e0 e1 e2 e3,
      readTable SEGMENT_MAP (format ⟨125, false⟩ 0).d0 = some e0
      ∧ readTable SEGMENT_MAP (format ⟨125, false⟩ 0).d1 = some e1
      ∧ readTable SEGMENT_MAP (format ⟨125, false⟩ 0).d2 = some e2
      ∧ readTable SEGMENT_MAP (format ⟨125, false⟩ 0).d3 = some e3
      ∧ segByte (format ⟨125, false⟩ 0) 0 = some e0
      ∧ segByte (format ⟨125, false⟩ 0) 1 = some (e1 &&& 0x7F)
      ∧ segByte (format ⟨125, false⟩ 0) 2 = some e2
      ∧ segByte (format ⟨125, false⟩ 0) 3 = some e3 :=
  time_dp_on_position_one 125 0 (by decide) (by decide)

/-- C8 as stated fails: for the digit 0 with the decimal-point flag set the
byte is `0x40` at position 0 and at position 1, and bit 6 (mask `0x40`) of it
is set, not cleared. -/
theorem dp_does_not_clear_bit_six :
    segByte ⟨0, 0, 0, 0, true, true⟩ 0 = some 0x40
    ∧ segByte ⟨0, 0, 0, 0, true, true⟩ 1 = some 0x40
    ∧ ¬ ((0x40 : Nat) &&& 0x40 = 0) := by
  decide

/-- C8, amended. Decimal-point bit: for every digit `d` in `0..9` with table
entry `e`, when the decimal-point flag is set (position 0 with `dp0`,
position 1 with `dp2`) the resulting segment byte is `e AND 0x7F`: its bit 7
(mask `0x80`) is cleared and its other seven bits are those of `e`; when the
flag is clear the byte is the unchanged table entry. -/
theorem dp_clears_bit_seven (d : Int) (h0 : 0 ≤ d) (h9 : d ≤ 9) (x y z : Int) (f g : Bool) :
    ∃ e b, readTable SEGMENT_MAP d = some e
      ∧ segByte ⟨d, x, y, z, true, g⟩ 0 = some b
      ∧ segByte ⟨x, d, y, z, f, true⟩ 1 = some b
      ∧ b &&& 0x80 = 0
      ∧ b &&& 0x7F = e &&& 0x7F
      ∧ segByte ⟨d, x, y, z, false, g⟩ 0 = some e
      ∧ segByte ⟨x, d, y, z, f, false⟩ 1 = some e := by
  obtain ⟨e, he, -, -, h2, h3, h4, h5⟩ := readTable_digit d h0 h9
  refine ⟨e, e &&& 0x7F, he, ?_, ?_, h4, h5, ?_, ?_⟩
  · simp [segByte, segOrBlank, h9, he, dpMask, h3]
  · simp [segByte, h9, he, dpMask, h3]
  · simp [segByte, segOrBlank, h9, he, dpMask, h2]
  · simp [segByte, h9, he, dpMask, h2]

theorem dp_clears_bit_seven_witness :
    ∃ e b, readTable SEGMENT_MAP 0 = some e
      ∧ segByte ⟨0, 1, 2, 3, true, false⟩ 0 = some b
      ∧ segByte ⟨1, 0, 2, 3, false, true⟩ 1 = some b
      ∧ b &&& 0x80 = 0
      ∧ b &&& 0x7F = e &&& 0x7F
      ∧ segByte ⟨0, 1, 2, 3, false, false⟩ 0 = some e
      ∧ segByte ⟨1, 0, 2, 3, false, false⟩ 1 = some e :=
  dp_clears_bit_seven 0 (by decide) (by decide) 1 2 3 false false

/-! ## Table bounds -/

theorem readTable_select (pos : Nat) (h : pos < 4) :
    ∃ b, readTable SELECT_MAP pos = some b := by
  interval_cases pos <;> exact ⟨_, rfl⟩

theorem refreshFrame_of_segBytes (q : DigitQuad) (b0 b1 b2 b3 : Nat)
    (h0 : segByte q 0 = some b0) (h1 : segByte q 1 = some b1)
    (h2 : segByte q 2 = some b2) (h3 : segByte q 3 = some b3) :
    frameSegBytes q = some [b0, b1, b2, b3]
    ∧ refreshFrame q = some (
        [Event.latch 0] ++ shiftOutByte b0 ++ shiftOutByte 0xF1
          ++ [Event.latch 1, Event.sleep1ms]
        ++ ([Event.latch 0] ++ shiftOutByte b1 ++ shiftOutByte 0xF2
          ++ [Event.latch 1, Event.sleep1ms]
        ++ ([Event.latch 0] ++ shiftOutByte b2 ++ shiftOutByte 0xF4
          ++ [Event.latch 1, Event.sleep1ms]
        ++ ([Event.latch 0] ++ shiftOutByte b3 ++ shiftOutByte 0xF8
          ++ [Event.latch 1, Event.sleep1ms] ++ [])))) := by
  have h1n : segByte q ((0 + 1 : Nat) : Int) = some b1 := h1
  have h2n : segByte q ((0 + 1 + 1 : Nat) : Int) = some b2 := h2
  have h3n : segByte q ((0 + 1 + 1 + 1 : Nat) : Int) = some b3 := h3
  have h0n : segByte q ((0 : Nat) : Int) = some b0 := h0
  have s0 : readTable SELECT_MAP ((0 : Nat) : Int) = some 0xF1 := rfl
  have s1 : readTable SELECT_MAP ((0 + 1 : Nat) : Int) = some 0xF2 := rfl
  have s2 : readTable SELECT_MAP ((0 + 1 + 1 : Nat) : Int) = some 0xF4 := rfl
  have s3 : readTable SELECT_MAP ((0 + 1 + 1 + 1 : Nat) : Int) = some 0xF8 := rfl
  constructor
  · simp [frameSegBytes, h0, h1, h2, h3]
  · simp only [refreshFrame, refreshLoop, h0n, h1n, h2n, h3n, s0, s1, s2, s3,
      Option.bind_eq_bind, Option.some_bind, Option.pure_def]

/-- C9. No out-of-range digit reaches the segment table: for every
non-negative value of the seconds counter in time mode and every centivolt
value `val ≥ 0` in voltage mode, each of the four digits computed by the main
loop is in `0..9` or is the blank sentinel `10`; hence every digit that passes
the guard `d <= 9` is an index inside `SEGMENT_MAP`, every position `0..3` is
an index inside `SELECT_MAP`, all eight table reads of a frame are defined and
the frame is produced. -/
theorem digits_within_tables (s : Shared) (val : Int)
    (ht : s.showVoltage = false → 0 ≤ s.secondsCount)
    (hv : s.showVoltage = true → 0 ≤ val) :
    (∀ d ∈ [(format s val).d0, (format s val).d1, (format s val).d2, (format s val).d3],
        ((0 ≤ d ∧ d ≤ 9) ∨ d = 10)
        ∧ (d ≤ 9 → 0 ≤ d ∧ d.toNat < SEGMENT_MAP.length
            ∧ (readTable SEGMENT_MAP d).isSome = true))
    ∧ (∀ pos : Nat, pos < 4 →
        pos < SELECT_MAP.length
        ∧ (readTable SELECT_MAP pos).isSome = true
        ∧ (segByte (format s val) pos).isSome = true)
    ∧ (frameSegBytes (format s val)).isSome = true
    ∧ (refreshFrame (format s val)).isSome = true := by
  have key : ∀ d : Int, 0 ≤ d → d ≤ 9 →
      d.toNat < SEGMENT_MAP.length ∧ (readTable SEGMENT_MAP d).isSome = true := by
    intro d h0 h9
    obtain ⟨e, he, -⟩ := readTable_digit d h0 h9
    refine ⟨?_, by simp [he]⟩
    simp only [SEGMENT_MAP, List.length]
    omega
  have hsegs : ∃ b0 b1 b2 b3,
      segByte (format s val) 0 = some b0 ∧ segByte (format s val) 1 = some b1
      ∧ segByte (format s val) 2 = some b2 ∧ segByte (format s val) 3 = some b3 := by
    cases hm : s.showVoltage with
    | false =>
      obtain ⟨e0, e1, e2, e3, -, -, -, -, s0, s1, s2, s3⟩ :=
        frameSegBytes_time s.secondsCount (ht hm)
      simp only [format, hm]
      exact ⟨_, _, _, _, s0, s1, s2, s3⟩
    | true =>
      obtain ⟨e0, e1, e2, -, -, -, s0, s1, s2, s3⟩ := frameSegBytes_voltage val (hv hm)
      simp only [format, hm]
      exact ⟨_, _, _, _, s0, s1, s2, s3⟩
  have hdig : ∀ d ∈ [(format s val).d0, (format s val).d1, (format s val).d2,
      (format s val).d3], (0 ≤ d ∧ d ≤ 9) ∨ d = 10 := by
    cases hm : s.showVoltage with
    | false =>
      simp only [format, hm, timeDigits_of_nonneg _ (ht hm)]
      intro d hd
      simp only [List.mem_cons, List.mem_singleton, List.not_mem_nil, or_false, Bool.false_eq_true,
        if_false] at hd
      rcases hd with rfl | rfl | rfl | rfl <;> left <;> omega
    | true =>
      have hv0 : 0 ≤ val := hv hm
      simp only [format, hm, voltageDigits_of_nonneg _ hv0]
      intro d hd
      simp only [List.mem_cons, List.mem_singleton, List.not_mem_nil, or_false, if_true] at hd
      rcases hd with rfl | rfl | rfl | rfl
      · left; omega
      · left; omega
      · left; omega
      · right; rfl
  obtain ⟨b0, b1, b2, b3, s0, s1, s2, s3⟩ := hsegs
  obtain ⟨hfs, hrf⟩ := refreshFrame_of_segBytes _ b0 b1 b2 b3 s0 s1 s2 s3
  refine ⟨?_, ?_, by simp [hfs], by simp [hrf]⟩
  · intro d hd
    refine ⟨hdig d hd, fun h9 => ?_⟩
    rcases hdig d hd with h | h
    · exact ⟨h.1, key d h.1 h.2⟩
    · omega
  · intro pos hp
    obtain ⟨b, hb⟩ := readTable_select pos hp
    refine ⟨by simpa [SELECT_MAP] using hp, by simp [hb], ?_⟩
    interval_cases pos
    · simp [s0]
    · simpa using congrArg Option.isSome s1
    · simpa using congrArg Option.isSome s2
    · simpa using congrArg Option.isSome s3

theorem digits_within_tables_witness :
    (((0 ≤ (format ⟨125, false⟩ 0).d1 ∧ (format ⟨125, false⟩ 0).d1 ≤ 9)
        ∨ (format ⟨125, false⟩ 0).d1 = 10)
      ∧ ((format ⟨125, false⟩ 0).d1 ≤ 9 →
          0 ≤ (format ⟨125, false⟩ 0).d1
          ∧ (format ⟨125, false⟩ 0).d1.toNat < SEGMENT_MAP.length
          ∧ (readTable SEGMENT_MAP (format ⟨125, false⟩ 0).d1).isSome = true))
    ∧ (frameSegBytes (format ⟨125, false⟩ 0)).isSome = true
    ∧ (refreshFrame (format ⟨125, false⟩ 0)).isSome = true := by
  have h := digits_within_tables ⟨125, false⟩ 0 (fun _ => by decide)
    (fun hm => by cases hm)
  exact ⟨h.1 _ (by simp), h.2.2⟩

/-! ## Mode button and writers of the shared fields -/

/-- C11. Mode toggle: from every state, `onS3Pressed` sets the mode flag
`showVoltage`, and `onS3Pressed` followed by `onS3Released` with no other
handler in between leaves it clear (time mode); the initial mode is time. -/
theorem mode_toggle (cnt : Int) (mode : Bool) :
    (onS3Pressed ⟨cnt, mode⟩).showVoltage = true
    ∧ (onS3Released (onS3Pressed ⟨cnt, mode⟩)).showVoltage = false
    ∧ Shared.init.showVoltage = false := by
  refine ⟨rfl, rfl, rfl⟩

/-- C13 as stated fails: `onResetPressed`, a handler other than `tick`, changes
the seconds counter (from 5 to 0). -/
theorem reset_writes_counter :
    (onResetPressed ⟨5, false⟩).secondsCount = 0
    ∧ ¬ ((onResetPressed ⟨5, false⟩).secondsCount = (⟨5, false⟩ : Shared).secondsCount) := by
  decide

/-- C13, amended. Among the four interrupt handlers the seconds counter is
written only by `tick` and `onResetPressed`, and the mode flag only by
`onS3Pressed` and `onS3Released`: for every starting state the two mode-button
handlers leave the seconds counter unchanged, and `tick` and `onResetPressed`
leave the mode flag unchanged. -/
theorem field_writers (cnt : Int) (mode : Bool) :
    (onS3Pressed ⟨cnt, mode⟩).secondsCount = cnt
    ∧ (onS3Released ⟨cnt, mode⟩).secondsCount = cnt
    ∧ (tick ⟨cnt, mode⟩).showVoltage = mode
    ∧ (onResetPressed ⟨cnt, mode⟩).showVoltage = mode := by
  refine ⟨rfl, rfl, rfl, rfl⟩

/-! ## Serialisation -/

theorem shiftOutByte_events (val : Nat) :
    shiftOutByte val =
      [Event.clock 0, Event.data (val / 128 % 2), Event.clock 1,
       Event.clock 0, Event.data (val / 64 % 2), Event.clock 1,
       Event.clock 0, Event.data (val / 32 % 2), Event.clock 1,
       Event.clock 0, Event.data (val / 16 % 2), Event.clock 1,
       Event.clock 0, Event.data (val / 8 % 2), Event.clock 1,
       Event.clock 0, Event.data (val / 4 % 2), Event.clock 1,
       Event.clock 0, Event.data (val / 2 % 2), Event.clock 1,
       Event.clock 0, Event.data (val / 1 % 2), Event.clock 1] := by
  simp only [shiftOutByte, shiftOutFrom, Nat.shiftRight_eq_div_pow, Nat.and_one_is_mod,
    List.cons_append, List.nil_append, List.append_nil]

theorem risingEdgeData_shiftOutByte (val clk dat : Nat) (rest : List Event) :
    risingEdgeData clk dat (shiftOutByte val ++ rest) =
      [val / 128 % 2, val / 64 % 2, val / 32 % 2, val / 16 % 2,
       val / 8 % 2, val / 4 % 2, val / 2 % 2, val / 1 % 2]
      ++ risingEdgeData 1 (val / 1 % 2) rest := by
  rw [shiftOutByte_events]
  simp [risingEdgeData]

theorem latchPulses_shiftOutByte (val lat : Nat) (rest : List Event) :
    latchPulses lat (shiftOutByte val ++ rest) = latchPulses lat rest := by
  rw [shiftOutByte_events]
  simp [latchPulses]

theorem shiftIn_bits (val : Nat) (h : val ≤ 255) :
    shiftIn [val / 128 % 2, val / 64 % 2, val / 32 % 2, val / 16 % 2,
      val / 8 % 2, val / 4 % 2, val / 2 % 2, val / 1 % 2] = val := by
  have d1 : val / 1 = val := Nat.div_one val
  have d4 : val / 4 = val / 2 / 2 := by omega
  have d8 : val / 8 = val / 2 / 2 / 2 := by omega
  have d16 : val / 16 = val / 2 / 2 / 2 / 2 := by omega
  have d32 : val / 32 = val / 2 / 2 / 2 / 2 / 2 := by omega
  have d64 : val / 64 = val / 2 / 2 / 2 / 2 / 2 / 2 := by omega
  have d128 : val / 128 = val / 2 / 2 / 2 / 2 / 2 / 2 / 2 := by omega
  unfold shiftIn
  simp only [List.foldl_cons, List.foldl_nil, d1, d4, d8, d16, d32, d64, d128]
  omega

/-- C12. Serialisation, most significant bit first: for every byte `val` in
`0..255`, `shiftOutByte val` is exactly 8 groups (clock low, data set, clock
high) whose data values are bits 7, 6, ..., 0 of `val`; whatever the levels of
the lines before, the clock line rises exactly 8 times, the data-line values at
those rising edges are bits 7 down to 0 in that order, and a receiver shifting
them in most-significant-bit first holds exactly `val`. -/
theorem shiftOutByte_msb_first (val : Nat) (h : val ≤ 255) (clk dat : Nat) :
    shiftOutByte val =
      [Event.clock 0, Event.data (val / 128 % 2), Event.clock 1,
       Event.clock 0, Event.data (val / 64 % 2), Event.clock 1,
       Event.clock 0, Event.data (val / 32 % 2), Event.clock 1,
       Event.clock 0, Event.data (val / 16 % 2), Event.clock 1,
       Event.clock 0, Event.data (val / 8 % 2), Event.clock 1,
       Event.clock 0, Event.data (val / 4 % 2), Event.clock 1,
       Event.clock 0, Event.data (val / 2 % 2), Event.clock 1,
       Event.clock 0, Event.data (val / 1 % 2), Event.clock 1]
    ∧ risingEdgeData clk dat (shiftOutByte val) =
        [val / 128 % 2, val / 64 % 2, val / 32 % 2, val / 16 % 2,
         val / 8 % 2, val / 4 % 2, val / 2 % 2, val / 1 % 2]
    ∧ (risingEdgeData clk dat (shiftOutByte val)).length = 8
    ∧ shiftIn (risingEdgeData clk dat (shiftOutByte val)) = val := by
  have hr : risingEdgeData clk dat (shiftOutByte val) =
      [val / 128 % 2, val / 64 % 2, val / 32 % 2, val / 16 % 2,
       val / 8 % 2, val / 4 % 2, val / 2 % 2, val / 1 % 2] := by
    rw [shiftOutByte_events]
    simp [risingEdgeData]
  refine ⟨shiftOutByte_events val, hr, by rw [hr]; simp, ?_⟩
  rw [hr]
  exact shiftIn_bits val h

theorem shiftOutByte_msb_first_witness :
    shiftOutByte 0xA4 =
      [Event.clock 0, Event.data 1, Event.clock 1,
       Event.clock 0, Event.data 0, Event.clock 1,
       Event.clock 0, Event.data 1, Event.clock 1,
       Event.clock 0, Event.data 0, Event.clock 1,
       Event.clock 0, Event.data 0, Event.clock 1,
       Event.clock 0, Event.data 1, Event.clock 1,
       Event.clock 0, Event.data 0, Event.clock 1,
       Event.clock 0, Event.data 0, Event.clock 1]
    ∧ risingEdgeData 1 1 (shiftOutByte 0xA4) = [1, 0, 1, 0, 0, 1, 0, 0]
    ∧ (risingEdgeData 1 1 (shiftOutByte 0xA4)).length = 8
    ∧ shiftIn (risingEdgeData 1 1 (shiftOutByte 0xA4)) = 0xA4 :=
  shiftOutByte_msb_first 0xA4 (by decide) 1 1

/-! ## Frame protocol -/

theorem segOrBlank_defined (d : Int) (h : 0 ≤ d) : ∃ e, segOrBlank d = some e := by
  by_cases h9 : d ≤ 9
  · obtain ⟨e, he, -⟩ := readTable_digit d h h9
    exact ⟨e, by rw [segOrBlank_digit d h9, he]⟩
  · exact ⟨0xFF, by simp [segOrBlank, h9]⟩

theorem segByte_defined (q : DigitQuad) (h0 : 0 ≤ q.d0) (h1 : 0 ≤ q.d1) (h2 : 0 ≤ q.d2)
    (h3 : 0 ≤ q.d3) :
    ∃ b0 b1 b2 b3, segByte q 0 = some b0 ∧ segByte q 1 = some b1
      ∧ segByte q 2 = some b2 ∧ segByte q 3 = some b3 := by
  obtain ⟨e0, r0⟩ := segOrBlank_defined q.d0 h0
  obtain ⟨e2, r2⟩ := segOrBlank_defined q.d2 h2
  obtain ⟨e3, r3⟩ := segOrBlank_defined q.d3 h3
  have p0 : (segByte q 0).isSome = true := by simp [segByte, r0]
  have p1 : (segByte q 1).isSome = true := by
    by_cases h9 : q.d1 ≤ 9
    · obtain ⟨e, he, -⟩ := readTable_digit q.d1 h1 h9
      simp [segByte, h9, he]
    · simp [segByte, h9]
  have p2 : (segByte q 2).isSome = true := by simp [segByte, r2]
  have p3 : (segByte q 3).isSome = true := by simp [segByte, r3]
  obtain ⟨b0, s0⟩ := Option.isSome_iff_exists.mp p0
  obtain ⟨b1, s1⟩ := Option.isSome_iff_exists.mp p1
  obtain ⟨b2, s2⟩ := Option.isSome_iff_exists.mp p2
  obtain ⟨b3, s3⟩ := Option.isSome_iff_exists.mp p3
  exact ⟨b0, b1, b2, b3, s0, s1, s2, s3⟩

/-- C15. Frame protocol: for every digit quad (digits not negative, which
covers `0..9` and the blank sentinel) and flag pair, one pass of the refresh
loop emits, for `pos = 0, 1, 2, 3` in that order, exactly the events
latch low, `shiftOutByte` of the segment byte of `pos`, `shiftOutByte` of
`SELECT_MAP[pos]`, latch high, hold 1 ms. A frame therefore has exactly 4 latch
pulses and 64 clock pulses, the segment byte precedes its select byte, and the
latch is raised only after both bytes have been shifted. -/
theorem frame_protocol (q : DigitQuad) (h0 : 0 ≤ q.d0) (h1 : 0 ≤ q.d1) (h2 : 0 ≤ q.d2)
    (h3 : 0 ≤ q.d3) (lat clk dat : Nat) :
    ∃ b0 b1 b2 b3 s0 s1 s2 s3 frame,
      segByte q 0 = some b0 ∧ segByte q 1 = some b1
      ∧ segByte q 2 = some b2 ∧ segByte q 3 = some b3
      ∧ readTable SELECT_MAP 0 = some s0 ∧ readTable SELECT_MAP 1 = some s1
      ∧ readTable SELECT_MAP 2 = some s2 ∧ readTable SELECT_MAP 3 = some s3
      ∧ refreshFrame q = some frame
      ∧ frame =
          [Event.latch 0] ++ shiftOutByte b0 ++ shiftOutByte s0
            ++ [Event.latch 1, Event.sleep1ms]
          ++ ([Event.latch 0] ++ shiftOutByte b1 ++ shiftOutByte s1
            ++ [Event.latch 1, Event.sleep1ms]
          ++ ([Event.latch 0] ++ shiftOutByte b2 ++ shiftOutByte s2
            ++ [Event.latch 1, Event.sleep1ms]
          ++ ([Event.latch 0] ++ shiftOutByte b3 ++ shiftOutByte s3
            ++ [Event.latch 1, Event.sleep1ms])))
      ∧ latchPulses lat frame = 4
      ∧ (risingEdgeData clk dat frame).length = 64 := by
  obtain ⟨b0, b1, b2, b3, r0, r1, r2, r3⟩ := segByte_defined q h0 h1 h2 h3
  obtain ⟨-, hf⟩ := refreshFrame_of_segBytes q b0 b1 b2 b3 r0 r1 r2 r3
  refine ⟨b0, b1, b2, b3, 0xF1, 0xF2, 0xF4, 0xF8, _, r0, r1, r2, r3, rfl, rfl, rfl, rfl,
    hf, by simp only [List.append_nil], ?_, ?_⟩
  · simp [List.append_assoc, latchPulses, latchPulses_shiftOutByte]
  · simp [List.append_assoc, risingEdgeData, risingEdgeData_shiftOutByte]

theorem frame_protocol_witness :
    ∃ frame,
      refreshFrame (format ⟨125, false⟩ 0) = some frame
      ∧ frame =
          [Event.latch 0] ++ shiftOutByte 0xC0 ++ shiftOutByte 0xF1
            ++ [Event.latch 1, Event.sleep1ms]
          ++ ([Event.latch 0] ++ shiftOutByte 0x24 ++ shiftOutByte 0xF2
            ++ [Event.latch 1, Event.sleep1ms]
          ++ ([Event.latch 0] ++ shiftOutByte 0xC0 ++ shiftOutByte 0xF4
            ++ [Event.latch 1, Event.sleep1ms]
          ++ ([Event.latch 0] ++ shiftOutByte 0x92 ++ shiftOutByte 0xF8
            ++ [Event.latch 1, Event.sleep1ms])))
      ∧ latchPulses 1 frame = 4
      ∧ (risingEdgeData 1 0 frame).length = 64 := by
  obtain ⟨b0, b1, b2, b3, s0, s1, s2, s3, frame, r0, r1, r2, r3, t0, t1, t2, t3, hf, he, hl, hc⟩ :=
    frame_protocol (format ⟨125, false⟩ 0) (by decide) (by decide) (by decide) (by decide) 1 1 0
  have e0 : b0 = 0xC0 := Option.some.inj (r0.symm.trans (by decide))
  have e1 : b1 = 0x24 := Option.some.inj (r1.symm.trans (by decide))
  have e2 : b2 = 0xC0 := Option.some.inj (r2.symm.trans (by decide))
  have e3 : b3 = 0x92 := Option.some.inj (r3.symm.trans (by decide))
  have u0 : s0 = 0xF1 := Option.some.inj (t0.symm.trans (by decide))
  have u1 : s1 = 0xF2 := Option.some.inj (t1.symm.trans (by decide))
  have u2 : s2 = 0xF4 := Option.some.inj (t2.symm.trans (by decide))
  have u3 : s3 = 0xF8 := Option.some.inj (t3.symm.trans (by decide))
  subst e0 e1 e2 e3 u0 u1 u2 u3
  exact ⟨frame, hf, he, hl, hc⟩

/-! ## Digit selection -/

/-- C16. Digit selection is one-hot: for every position `p` in `0..3` the
select byte shifted out by the refresh loop is `SELECT_MAP[p] = 0xF0 OR (1 << p)`;
among its bits 0..3 exactly one is set and it is bit `p`, and the select bytes
of distinct positions are distinct. -/
theorem select_one_hot (p : Nat) (hp : p < 4) (q : DigitQuad) :
    readTable SELECT_MAP p = some (0xF0 ||| (1 <<< p))
    ∧ (∀ i : Nat, i < 4 → ((0xF0 ||| (1 <<< p)).testBit i = true ↔ i = p))
    ∧ (∀ r : Nat, r < 4 → readTable SELECT_MAP r = readTable SELECT_MAP p → r = p)
    ∧ refreshLoop q p 1 =
        (segByte q p).map fun seg =>
          [Event.latch 0] ++ shiftOutByte seg ++ shiftOutByte (0xF0 ||| (1 <<< p))
            ++ [Event.latch 1, Event.sleep1ms] := by
  have hloop : ∀ sel, readTable SELECT_MAP p = some sel →
      refreshLoop q p 1 =
        (segByte q p).map fun seg =>
          [Event.latch 0] ++ shiftOutByte seg ++ shiftOutByte sel
            ++ [Event.latch 1, Event.sleep1ms] := by
    intro sel hsel
    cases hs : segByte q p <;> simp [refreshLoop, hs, hsel]
  have htab : readTable SELECT_MAP p = some (0xF0 ||| (1 <<< p)) := by
    interval_cases p <;> rfl
  refine ⟨htab, ?_, ?_, hloop _ htab⟩
  · intro i hi
    interval_cases p <;> interval_cases i <;> decide
  · intro r hr
    interval_cases p <;> interval_cases r <;> decide

theorem select_one_hot_witness :
    readTable SELECT_MAP 2 = some 0xF4
    ∧ ((0xF4 : Nat).testBit 0 = false ∧ (0xF4 : Nat).testBit 1 = false
        ∧ (0xF4 : Nat).testBit 2 = true ∧ (0xF4 : Nat).testBit 3 = false)
    ∧ refreshLoop (format ⟨125, false⟩ 0) 2 1 =
        some ([Event.latch 0] ++ shiftOutByte 0xC0 ++ shiftOutByte 0xF4
          ++ [Event.latch 1, Event.sleep1ms]) := by
  have h := select_one_hot 2 (by decide) (format ⟨125, false⟩ 0)
  refine ⟨h.1, by decide, ?_⟩
  rw [h.2.2.2]
  rfl

/-! ## Display-level wrap -/

theorem timeDigits_mod (c : Int) (h : 0 ≤ c) : timeDigits c = timeDigits (c % 6000) := by
  have hm : 0 ≤ c % 6000 := Int.emod_nonneg c (by decide)
  rw [timeDigits_of_nonneg c h, timeDigits_of_nonneg (c % 6000) hm, Int.emod_emod_of_dvd c (dvd_refl _)]

theorem runSpecTicks_spec (n : Nat) (c : Int) (m : Bool) (h0 : 0 ≤ c) (h1 : c ≤ 5999) :
    runSpecTicks n ⟨c, m⟩ = ⟨(c + n) % 6000, m⟩ := by
  induction n generalizing c with
  | zero =>
    simp only [runSpecTicks, Nat.cast_zero, add_zero]
    congr 1
    omega
  | succ k ih =>
    rw [runSpecTicks]
    by_cases hw : c + 1 > 5999
    · have hs : specTick ⟨c, m⟩ = ⟨0, m⟩ := by simp [specTick, hw]
      rw [hs, ih 0 (by decide) (by decide)]
      congr 1
      push_cast
      omega
    · have hs : specTick ⟨c, m⟩ = ⟨c + 1, m⟩ := by simp [specTick, hw]
      rw [hs, ih (c + 1) (by omega) (by omega)]
      congr 1
      push_cast
      omega

/-- C17. Display-level wrap: for every non-negative stored counter value `c`
the time-mode digits and segment bytes computed by the main loop for `c` equal
those computed for `c mod 6000`. Consequently, after `n` invocations of `tick`
from 0 with no reset (`n` below `2^31`) the display shows the minutes and
seconds of `n mod 6000`, exactly as with a counter that wraps to 0 after 5999
(`specTick`), and after 6000 ticks it shows 00.00. -/
theorem display_wraps (c val : Int) (hc : 0 ≤ c) (n : Nat) (hn : n < 2147483648) :
    format ⟨c, false⟩ val = format ⟨c % 6000, false⟩ val
    ∧ frameSegBytes (format ⟨c, false⟩ val) = frameSegBytes (format ⟨c % 6000, false⟩ val)
    ∧ format (runTicks n Shared.init) val = format ⟨((n % 6000 : Nat) : Int), false⟩ val
    ∧ format (runTicks n Shared.init) val = format (runSpecTicks n Shared.init) val
    ∧ ((format (runTicks n Shared.init) val).d0 * 10 + (format (runTicks n Shared.init) val).d1)
          * 60
        + ((format (runTicks n Shared.init) val).d2 * 10
          + (format (runTicks n Shared.init) val).d3) = ((n % 6000 : Nat) : Int)
    ∧ frameSegBytes (format (runTicks 6000 Shared.init) val) = some [0xC0, 0x40, 0xC0, 0xC0] := by
  have hf : ∀ x : Int, format ⟨x, false⟩ val = timeDigits x := fun x => by simp [format]
  have hr : runTicks n Shared.init = ⟨(n : Int), false⟩ := by
    have h := runTicks_spec n Shared.init (by decide) (by simp only [Shared.init]; omega)
    rw [h]
    simp [Shared.init]
  have hr6 : runTicks 6000 Shared.init = ⟨6000, false⟩ := by
    have h := runTicks_spec 6000 Shared.init (by decide) (by decide)
    rw [h]
    rfl
  have hsp : runSpecTicks n Shared.init = ⟨((n % 6000 : Nat) : Int), false⟩ := by
    have h := runSpecTicks_spec n 0 false (by decide) (by decide)
    have e : ((0 : Int) + (n : Int)) % 6000 = ((n % 6000 : Nat) : Int) := by
      push_cast
      omega
    simp only [Shared.init]
    rw [h, e]
  have hn0 : (0 : Int) ≤ (n : Int) := by omega
  have hmod : timeDigits (n : Int) = timeDigits ((n % 6000 : Nat) : Int) := by
    rw [timeDigits_mod (n : Int) hn0, Int.natCast_mod]
    rfl
  have hc1 : format ⟨c, false⟩ val = format ⟨c % 6000, false⟩ val := by
    rw [hf, hf, ← timeDigits_mod c hc]
  refine ⟨hc1, by rw [hc1], ?_, ?_, ?_, ?_⟩
  · rw [hr, hf, hf, hmod]
  · rw [hr, hsp, hf, hf, hmod]
  · rw [hr, hf, timeDigits_of_nonneg _ hn0]
    dsimp only
    push_cast
    omega
  · rw [hr6, hf]
    decide

theorem display_wraps_witness :
    format ⟨6125, false⟩ 0 = format ⟨125, false⟩ 0
    ∧ frameSegBytes (format ⟨6125, false⟩ 0) = some [0xC0, 0x24, 0xC0, 0x92]
    ∧ format (runTicks 6000 Shared.init) 0 = format ⟨0, false⟩ 0
    ∧ format (runTicks 6000 Shared.init) 0 = format (runSpecTicks 6000 Shared.init) 0
    ∧ frameSegBytes (format (runTicks 6000 Shared.init) 0) = some [0xC0, 0x40, 0xC0, 0xC0] := by
  have h := display_wraps 6125 0 (by decide) 6000 (by decide)
  refine ⟨h.1, ?_, h.2.2.1, h.2.2.2.1, h.2.2.2.2.2⟩
  rw [h.2.1]
  decide

end Display
